import Mathlib

/-!
# Verification of the neuro-kinetic Adaptive Relational Trial Engine

Shallow embedding of the core game logic of the repository:

* `src/src/types.tsx` — shared enums and the `GameResult` record.
* `src/src/components/StreamProtocol.tsx` — the continuous *stream* variant
  (`StreamProtocol`) and, concatenated in the same file, the discrete
  *Saccade* variant (trial counter, HIT/MISS scoring, terminal `GameResult`).
* `src/src/components/SaccadeProtocol.tsx` — the `InfinitePosner` engine
  (level / speed-window controller `handleResult`).

React `useState` fields become record fields; `Math.random()` draws are passed
in explicitly as a `Draws` record; `setTimeout`-deferred updates of a trial are
folded into the trial-resolution functions in program order.  Fields that only
drive rendering or remap the physical input device (`userAnswer`, `isDamaged`,
`isInputInverted`, `isLureActive`, feedback colours, audio) are omitted: the
embedded operations take the already-resolved logical input.
-/

namespace NeuroKinetic

/-! ### Shared data model (src/src/types.tsx) -/

inductive ColorState
  | RED
  | BLUE
deriving DecidableEq, Repr

inductive ModifierType
  | KEEP
  | INVERT
deriving DecidableEq, Repr

inductive Mode
  | SACCADE
  | STREAM
deriving DecidableEq, Repr

/-- Terminal result record (`GameResult` in types.tsx).  `avgReactionTime` and
`details` are optional fields in the TypeScript interface. -/
structure GameResult where
  mode : Mode
  score : Nat
  avgReactionTime : Option Int := none
  details : Option String := none
deriving DecidableEq, Repr

/-- JavaScript `Math.round`: round half away from zero towards `+∞`,
i.e. `⌊x + 1/2⌋`.  All rounded values in this program are nonnegative. -/
def jsRound (q : ℚ) : ℤ := ⌊q + 1/2⌋

/-! ### Stream variant (`StreamProtocol` component)

`ComplexityLevel` is the ordered enum `BASELINE = 0 < SPEED_UP = 1 <
FLUX_INTRO = 2 < JITTER_INTRO = 3 < NOISE_INTRO = 4 < MAXIMUM_LOAD = 5`,
embedded as `Nat` values. -/

def BASELINE : Nat := 0
def FLUX_INTRO : Nat := 2
def MAXIMUM_LOAD : Nat := 5

/-- The `Math.random()` draws one trial-resolution step can consume:
the next modifier (`Math.random() > 0.5 ? KEEP : INVERT`) and the flux
activation draw (`Math.random() > 0.7`). -/
structure Draws where
  modifierDraw : ModifierType
  fluxDraw : Bool
deriving DecidableEq, Repr

/-- The engine-relevant mutable state of the `StreamProtocol` component.
`gameActive` is `gameState === StreamState.ACTIVE`; `hasAnswered` is the
synchronously written `hasAnsweredRef`. -/
structure StreamSt where
  gameActive : Bool
  hasAnswered : Bool
  isRebooting : Bool
  score : Nat
  lives : Nat
  buffer : Nat
  currentState : ColorState
  nextModifier : ModifierType
  isFluxActive : Bool
  warmUpRounds : Nat
  history : List Bool
  complexity : Nat
  roundDuration : ℚ
deriving DecidableEq, Repr

def flipColor : ColorState → ColorState
  | .RED => .BLUE
  | .BLUE => .RED

def invertModifier : ModifierType → ModifierType
  | .KEEP => .INVERT
  | .INVERT => .KEEP

/-- Lines 228–229: `let effectiveModifier = nextModifier; if (isFluxActive)
effectiveModifier = nextModifier === KEEP ? INVERT : KEEP;`. -/
def effectiveModifier (m : ModifierType) (fluxActive : Bool) : ModifierType :=
  if fluxActive then invertModifier m else m

/-- Lines 231–234: the expected state is the current anchor state, flipped
when the (flux-adjusted) modifier is INVERT. -/
def resolveExpected (currentState : ColorState) (m : ModifierType)
    (fluxActive : Bool) : ColorState :=
  if effectiveModifier m fluxActive = ModifierType.INVERT then
    flipColor currentState
  else currentState

/-- `Array.prototype.slice(-n)`: the last `n` elements (all, if fewer). -/
def sliceLast (n : Nat) (l : List Bool) : List Bool := l.drop (l.length - n)

/-- `updateDifficulty` (lines 188–201): push the outcome onto the bounded
history, step the complexity level, and adjust the round duration
(`* 0.95` floored at 1200 on a correct answer, `* 1.3` capped at 3000 on an
incorrect one). -/
def updateDifficulty (wasCorrect : Bool) (s : StreamSt) : StreamSt :=
  let newHistory := sliceLast 5 (s.history ++ [wasCorrect])
  let recentCorrect := (newHistory.filter id).length
  let stepped :=
    if 3 ≤ newHistory.length then
      if recentCorrect = newHistory.length ∧ s.complexity < MAXIMUM_LOAD then
        { s with complexity := s.complexity + 1, history := [] }
      else if wasCorrect = false ∧ BASELINE < s.complexity then
        { s with complexity := s.complexity - 1, history := [] }
      else { s with history := newHistory }
    else { s with history := newHistory }
  if wasCorrect then
    { stepped with roundDuration := max 1200 (stepped.roundDuration * (19/20)) }
  else
    { stepped with roundDuration := min 3000 (stepped.roundDuration * (13/10)) }

/-- The buffer update on a correct answer (lines 239–243): `+20`; on reaching
100 the buffer resets to 0 and a bonus life is granted if below the cap 5. -/
def bufferGain (s : StreamSt) : StreamSt :=
  let next := s.buffer + 20
  if 100 ≤ next then
    { s with buffer := 0, lives := if s.lives < 5 then s.lives + 1 else s.lives }
  else { s with buffer := next }

/-- `generateNextRoundConfig` (lines 203–221).  `ctx` is the React render
closure the function reads its guards from (`warmUpRounds`, `complexity`),
while the functional updates apply to the committed state `s`; at every call
site except the reboot timeout the two coincide.  The `isInputInverted` /
`isLureActive` resampling (lines 210–218) only remaps the physical input
device and the visuals and is not part of the embedded logical state. -/
def generateNextRoundConfig (d : Draws) (ctx : StreamSt)
    (successfulInput : ColorState) (s : StreamSt) : StreamSt :=
  { s with
    currentState := successfulInput,
    warmUpRounds := if 0 < ctx.warmUpRounds then s.warmUpRounds - 1 else s.warmUpRounds,
    isFluxActive := if FLUX_INTRO ≤ ctx.complexity then d.fluxDraw else false,
    nextModifier := d.modifierDraw }

/-- The synchronous resets of `triggerSystemReboot` (lines 277–281): level
decremented one step with floor `Math.max(BASELINE, prev - 1)` (`Nat`
subtraction already saturates at 0 = BASELINE), lives back to 3, buffer 0,
round duration back to the session-start 3000 ms, warm-up back to 3. -/
def rebootReset (s : StreamSt) : StreamSt :=
  { s with
    isRebooting := true,
    complexity := max BASELINE (s.complexity - 1),
    lives := 3, buffer := 0, roundDuration := 3000, warmUpRounds := 3 }

/-- `triggerSystemReboot` (lines 276–286): the synchronous resets followed by
the 3000 ms recovery timeout, which clears the reboot overlay, clears
`hasAnsweredRef`, and calls `generateNextRoundConfig(currentState)`.  That
closure reads the pre-reboot render state, so `ctx` is the incoming `s`. -/
def triggerSystemReboot (d : Draws) (s : StreamSt) : StreamSt :=
  generateNextRoundConfig d s s.currentState
    { rebootReset s with isRebooting := false, hasAnswered := false }

/-- Result of `handleMistake`: the settled state plus the signalled flags
(`wasAbsorbed` = the SHIELD_BREAK branch was taken, `shouldReboot` = lives
reached 0 and `triggerSystemReboot` ran). -/
structure MistakeStep where
  st : StreamSt
  wasAbsorbed : Bool
  shouldReboot : Bool
deriving DecidableEq, Repr

/-- `handleMistake` (lines 253–274), with the 800 ms feedback timeout body
folded in.  If `lives === 1 && buffer >= 50` the mistake is absorbed: the
whole buffer is consumed, lives are untouched, and after the shield-break
feedback a fresh modifier is drawn.  Otherwise a life is lost and the buffer
cleared; at 0 lives `triggerSystemReboot` runs instead of the life update. -/
def handleMistake (d : Draws) (s : StreamSt) : MistakeStep :=
  if s.lives = 1 ∧ 50 ≤ s.buffer then
    let s1 := updateDifficulty false { s with buffer := 0 }
    { st := { s1 with hasAnswered := false, nextModifier := d.modifierDraw },
      wasAbsorbed := true, shouldReboot := false }
  else
    let newLives := s.lives - 1
    let s1 := updateDifficulty false { s with buffer := 0 }
    if newLives = 0 then
      { st := triggerSystemReboot d s1, wasAbsorbed := false, shouldReboot := true }
    else
      { st := { s1 with lives := newLives, hasAnswered := false,
                        nextModifier := d.modifierDraw },
        wasAbsorbed := false, shouldReboot := false }

/-- `handleInput` (lines 223–251) with the deferred 100 ms advance folded in.
The guard on line 224 rejects input unless the game is ACTIVE, unanswered and
not rebooting; `hasAnsweredRef.current = true` is written synchronously on
line 225.  On a correct answer the difficulty and buffer update and, after
100 ms, the score increments and `generateNextRoundConfig(inputColor)` runs
(render closure `ctx` = the pre-input state `s`); the round-start effect then
clears `hasAnsweredRef`.  On a wrong answer `handleMistake` runs. -/
def handleInput (d : Draws) (inputColor : ColorState) (s : StreamSt) : StreamSt :=
  if !s.gameActive || s.hasAnswered || s.isRebooting then s
  else
    let s0 := { s with hasAnswered := true }
    if inputColor = resolveExpected s0.currentState s0.nextModifier s0.isFluxActive then
      let s1 := bufferGain (updateDifficulty true s0)
      { generateNextRoundConfig d s inputColor { s1 with score := s1.score + 1 } with
        hasAnswered := false }
    else
      (handleMistake d s0).st

/-- `startGame` (lines 147–153): session-start state.  The anchor colour, the
first modifier draw and the persisted complexity level are parameters. -/
def startGame (startColor : ColorState) (firstModifier : ModifierType)
    (c0 : Nat) : StreamSt :=
  { gameActive := true, hasAnswered := false, isRebooting := false,
    score := 0, lives := 3, buffer := 0, currentState := startColor,
    nextModifier := firstModifier, isFluxActive := false,
    warmUpRounds := 3, history := [], complexity := c0, roundDuration := 3000 }

/-- The events that drive one stream session: a logical LEFT/RIGHT input
(already device-resolved to a `ColorState`), the round timeout detected by
`gameLoop` (line 162, which calls `handleMistake` only when unanswered), and
the Abort/exit action (which only calls `onExit`, line 473). -/
inductive StreamEv
  | input (d : Draws) (c : ColorState)
  | timeout (d : Draws)
  | exit
deriving DecidableEq, Repr

def streamStep (e : StreamEv) (s : StreamSt) : StreamSt :=
  match e with
  | .input d c => handleInput d c s
  | .timeout d =>
      if s.gameActive && !s.hasAnswered && !s.isRebooting then (handleMistake d s).st
      else s
  | .exit => { s with gameActive := false }

def streamRun (es : List StreamEv) (s : StreamSt) : StreamSt :=
  es.foldl (fun t e => streamStep e t) s

/-- One stream step together with the `GameResult` values it sends to the
surrounding application.  `StreamProtocol` destructures only `onExit` from its
props (line 55) and contains no call to `onGameOver`, so no transition emits
a result. -/
def streamStepOut (e : StreamEv) (s : StreamSt) : StreamSt × List GameResult :=
  (streamStep e s, [])

def streamRunOut (es : List StreamEv) (s : StreamSt) : StreamSt × List GameResult :=
  es.foldl (fun acc e =>
    let n := streamStepOut e acc.1
    (n.1, acc.2 ++ n.2)) (s, [])

/-! ### Field-preservation helper lemmas -/

theorem updateDifficulty_lives (w : Bool) (s : StreamSt) :
    (updateDifficulty w s).lives = s.lives := by
  unfold updateDifficulty; dsimp only
  split_ifs <;> rfl

theorem updateDifficulty_buffer (w : Bool) (s : StreamSt) :
    (updateDifficulty w s).buffer = s.buffer := by
  unfold updateDifficulty; dsimp only
  split_ifs <;> rfl

theorem updateDifficulty_hasAnswered (w : Bool) (s : StreamSt) :
    (updateDifficulty w s).hasAnswered = s.hasAnswered := by
  unfold updateDifficulty; dsimp only
  split_ifs <;> rfl

theorem updateDifficulty_currentState (w : Bool) (s : StreamSt) :
    (updateDifficulty w s).currentState = s.currentState := by
  unfold updateDifficulty; dsimp only
  split_ifs <;> rfl

/-! ### Theorems: C1, C3, C4 -/

/-- **C1** — Flux double-inversion law: resolving the expected state with
`fluxActive = true` equals resolving with the flipped modifier and
`fluxActive = false`; with flux active the result genuinely differs from the
raw-modifier resolution; and on a correct answer (`c` equal to the resolved
expected state) the next round's anchor `currentState` is set to exactly this
post-flux-adjusted expected state. -/
theorem flux_double_inversion_law (st : ColorState) (m : ModifierType)
    (d : Draws) (s : StreamSt) (c : ColorState)
    (hg : s.gameActive = true) (ha : s.hasAnswered = false)
    (hr : s.isRebooting = false)
    (hc : c = resolveExpected s.currentState s.nextModifier s.isFluxActive) :
    resolveExpected st m true = resolveExpected st (invertModifier m) false ∧
    resolveExpected st m true ≠ resolveExpected st m false ∧
    (handleInput d c s).currentState
      = resolveExpected s.currentState s.nextModifier s.isFluxActive := by
  refine ⟨?_, ?_, ?_⟩
  · cases st <;> cases m <;> rfl
  · cases st <;> cases m <;> simp [resolveExpected, effectiveModifier,
      invertModifier, flipColor]
  · simp only [handleInput, hg, ha, hr, Bool.not_true, Bool.false_or,
      Bool.or_self, if_neg Bool.false_ne_true]
    simp only [← hc]
    simp [generateNextRoundConfig, hc]

/-- **C1 witness**: the law at `currentState = RED`, `modifier = KEEP`, in a
fresh session state where the expected answer is `RED`. -/
theorem flux_double_inversion_law_witness :
    resolveExpected ColorState.RED ModifierType.KEEP true
      = resolveExpected ColorState.RED (invertModifier ModifierType.KEEP) false ∧
    resolveExpected ColorState.RED ModifierType.KEEP true
      ≠ resolveExpected ColorState.RED ModifierType.KEEP false ∧
    (handleInput ⟨ModifierType.KEEP, false⟩ ColorState.RED
        (startGame ColorState.RED ModifierType.KEEP 0)).currentState
      = resolveExpected (startGame ColorState.RED ModifierType.KEEP 0).currentState
          (startGame ColorState.RED ModifierType.KEEP 0).nextModifier
          (startGame ColorState.RED ModifierType.KEEP 0).isFluxActive :=
  flux_double_inversion_law ColorState.RED ModifierType.KEEP
    ⟨ModifierType.KEEP, false⟩ (startGame ColorState.RED ModifierType.KEEP 0)
    ColorState.RED rfl rfl rfl (by decide)

/-! ### Helper lemmas for the difficulty controller -/

theorem filter_id_length_eq (l : List Bool) :
    ((l.filter id).length = l.length) ↔ ∀ b ∈ l, b = true := by
  constructor
  · intro h b hb
    have heq : l.filter id = l := (List.filter_sublist l).eq_of_length h
    have := List.filter_eq_self.mp heq b hb
    simpa using this
  · intro h
    rw [List.filter_eq_self.mpr]
    intro b hb
    simpa using h b hb

theorem mem_sliceLast_append (h : List Bool) (w : Bool) :
    w ∈ sliceLast 5 (h ++ [w]) := by
  unfold sliceLast
  have hk : (h ++ [w]).length - 5 ≤ h.length := by
    simp only [List.length_append, List.length_singleton]
    omega
  rw [List.drop_append_of_le_length hk]
  simp

theorem sliceLast_length_le (n : Nat) (l : List Bool) :
    (sliceLast n l).length ≤ n := by
  unfold sliceLast
  simp only [List.length_drop]
  omega

/-- The complexity level computed by `updateDifficulty`, as a formula. -/
theorem updateDifficulty_complexity_char (w : Bool) (s : StreamSt) :
    (updateDifficulty w s).complexity =
      (if 3 ≤ (sliceLast 5 (s.history ++ [w])).length then
        if ((sliceLast 5 (s.history ++ [w])).filter id).length
            = (sliceLast 5 (s.history ++ [w])).length ∧ s.complexity < MAXIMUM_LOAD then
          s.complexity + 1
        else if w = false ∧ BASELINE < s.complexity then s.complexity - 1
        else s.complexity
      else s.complexity) := by
  unfold updateDifficulty
  dsimp only
  split_ifs <;> rfl

/-- The outcome history computed by `updateDifficulty`, as a formula. -/
theorem updateDifficulty_history_char (w : Bool) (s : StreamSt) :
    (updateDifficulty w s).history =
      (if 3 ≤ (sliceLast 5 (s.history ++ [w])).length then
        if ((sliceLast 5 (s.history ++ [w])).filter id).length
            = (sliceLast 5 (s.history ++ [w])).length ∧ s.complexity < MAXIMUM_LOAD then
          ([] : List Bool)
        else if w = false ∧ BASELINE < s.complexity then []
        else sliceLast 5 (s.history ++ [w])
      else sliceLast 5 (s.history ++ [w])) := by
  unfold updateDifficulty
  dsimp only
  split_ifs <;> rfl

/-- **C5** — Difficulty level stepping for `updateDifficulty`: the level moves
by at most one step; it increments exactly when at least 3 outcomes are in the
recorded (bounded) history, all of them correct, and the level is below
`MAXIMUM_LOAD`; it decrements exactly when at least 3 outcomes are recorded,
the latest outcome is incorrect, and the level is above `BASELINE`; the
history is cleared on every level change and never exceeds 5 entries. -/
theorem difficulty_level_stepping (w : Bool) (s : StreamSt) :
    ((updateDifficulty w s).complexity = s.complexity ∨
     (updateDifficulty w s).complexity = s.complexity + 1 ∨
     (updateDifficulty w s).complexity + 1 = s.complexity) ∧
    ((updateDifficulty w s).complexity = s.complexity + 1 ↔
      (3 ≤ (sliceLast 5 (s.history ++ [w])).length ∧
       (∀ b ∈ sliceLast 5 (s.history ++ [w]), b = true) ∧
       s.complexity < MAXIMUM_LOAD)) ∧
    ((updateDifficulty w s).complexity + 1 = s.complexity ↔
      (3 ≤ (sliceLast 5 (s.history ++ [w])).length ∧ w = false ∧
       BASELINE < s.complexity)) ∧
    ((updateDifficulty w s).complexity ≠ s.complexity →
      (updateDifficulty w s).history = []) ∧
    (updateDifficulty w s).history.length ≤ 5 := by
  have hmem : w ∈ sliceLast 5 (s.history ++ [w]) := mem_sliceLast_append s.history w
  have hlen5 : (sliceLast 5 (s.history ++ [w])).length ≤ 5 :=
    sliceLast_length_le 5 (s.history ++ [w])
  have hfe := filter_id_length_eq (sliceLast 5 (s.history ++ [w]))
  rw [updateDifficulty_complexity_char, updateDifficulty_history_char]
  by_cases h3 : 3 ≤ (sliceLast 5 (s.history ++ [w])).length
  · by_cases hall : ((sliceLast 5 (s.history ++ [w])).filter id).length
        = (sliceLast 5 (s.history ++ [w])).length ∧ s.complexity < MAXIMUM_LOAD
    · have hwt : w = true := hfe.mp hall.1 w hmem
      rw [if_pos h3, if_pos hall, if_pos h3, if_pos hall]
      refine ⟨Or.inr (Or.inl rfl), ?_, ?_, fun _ => rfl, by simp⟩
      · exact ⟨fun _ => ⟨h3, hfe.mp hall.1, hall.2⟩, fun _ => rfl⟩
      · constructor
        · intro h; omega
        · rintro ⟨-, hwf, -⟩
          rw [hwt] at hwf
          exact absurd hwf (by simp)
    · by_cases hdec : w = false ∧ BASELINE < s.complexity
      · rw [if_pos h3, if_neg hall, if_pos hdec, if_pos h3, if_neg hall, if_pos hdec]
        have hc : BASELINE < s.complexity := hdec.2
        simp only [BASELINE] at hc
        refine ⟨Or.inr (Or.inr (by omega)), ?_, ?_, fun _ => rfl, by simp⟩
        · constructor
          · intro h; omega
          · rintro ⟨-, hb, hlt⟩
            exact absurd ⟨hfe.mpr hb, hlt⟩ hall
        · exact ⟨fun _ => ⟨h3, hdec.1, hdec.2⟩, fun _ => by omega⟩
      · rw [if_pos h3, if_neg hall, if_neg hdec, if_pos h3, if_neg hall, if_neg hdec]
        refine ⟨Or.inl rfl, ?_, ?_, fun h => absurd rfl h, hlen5⟩
        · constructor
          · intro h; omega
          · rintro ⟨-, hb, hlt⟩
            exact absurd ⟨hfe.mpr hb, hlt⟩ hall
        · constructor
          · intro h; omega
          · rintro ⟨-, hwf, hlt⟩
            exact absurd ⟨hwf, hlt⟩ hdec
  · rw [if_neg h3, if_neg h3]
    refine ⟨Or.inl rfl, ?_, ?_, fun h => absurd rfl h, hlen5⟩
    · constructor
      · intro h; omega
      · rintro ⟨hl, -, -⟩; exact absurd hl h3
    · constructor
      · intro h; omega
      · rintro ⟨hl, -, -⟩; exact absurd hl h3

/-- **C5 witness**: a third consecutive correct outcome at level 0 increments
the level to 1 and clears the history. -/
theorem difficulty_level_stepping_witness :
    ((updateDifficulty true
        { startGame ColorState.RED ModifierType.KEEP 0 with
          history := [true, true] }).complexity = 0 ∨
     (updateDifficulty true
        { startGame ColorState.RED ModifierType.KEEP 0 with
          history := [true, true] }).complexity = 0 + 1 ∨
     (updateDifficulty true
        { startGame ColorState.RED ModifierType.KEEP 0 with
          history := [true, true] }).complexity + 1 = 0) ∧
    ((updateDifficulty true
        { startGame ColorState.RED ModifierType.KEEP 0 with
          history := [true, true] }).complexity = 0 + 1 ↔
      (3 ≤ (sliceLast 5 ([true, true] ++ [true])).length ∧
       (∀ b ∈ sliceLast 5 ([true, true] ++ [true]), b = true) ∧
       0 < MAXIMUM_LOAD)) ∧
    ((updateDifficulty true
        { startGame ColorState.RED ModifierType.KEEP 0 with
          history := [true, true] }).complexity + 1 = 0 ↔
      (3 ≤ (sliceLast 5 ([true, true] ++ [true])).length ∧ true = false ∧
       BASELINE < 0)) ∧
    ((updateDifficulty true
        { startGame ColorState.RED ModifierType.KEEP 0 with
          history := [true, true] }).complexity ≠ 0 →
      (updateDifficulty true
        { startGame ColorState.RED ModifierType.KEEP 0 with
          history := [true, true] }).history = []) ∧
    (updateDifficulty true
        { startGame ColorState.RED ModifierType.KEEP 0 with
          history := [true, true] }).history.length ≤ 5 :=
  difficulty_level_stepping true
    { startGame ColorState.RED ModifierType.KEEP 0 with history := [true, true] }

/-- **C3** — Absorb law: with `lives = 1` and `buffer ≥ 50`, an incorrect
answer is absorbed — the buffer is fully consumed, lives stay at 1, the
outcome is signalled as absorbed, and no reboot is triggered. -/
theorem absorb_law (d : Draws) (s : StreamSt)
    (hl : s.lives = 1) (hb : 50 ≤ s.buffer) :
    (handleMistake d s).st.lives = 1 ∧
    (handleMistake d s).st.buffer = 0 ∧
    (handleMistake d s).wasAbsorbed = true ∧
    (handleMistake d s).shouldReboot = false := by
  simp only [handleMistake, if_pos (And.intro hl hb)]
  refine ⟨?_, ?_, by trivial, by trivial⟩
  · show (updateDifficulty false { s with buffer := 0 }).lives = 1
    rw [updateDifficulty_lives]; exact hl
  · show (updateDifficulty false { s with buffer := 0 }).buffer = 0
    rw [updateDifficulty_buffer]

/-- **C3 witness**: absorbing at `lives = 1`, `buffer = 60`. -/
theorem absorb_law_witness :
    (handleMistake ⟨ModifierType.KEEP, false⟩
        { startGame ColorState.RED ModifierType.KEEP 0 with
          lives := 1, buffer := 60 }).st.lives = 1 ∧
    (handleMistake ⟨ModifierType.KEEP, false⟩
        { startGame ColorState.RED ModifierType.KEEP 0 with
          lives := 1, buffer := 60 }).st.buffer = 0 ∧
    (handleMistake ⟨ModifierType.KEEP, false⟩
        { startGame ColorState.RED ModifierType.KEEP 0 with
          lives := 1, buffer := 60 }).wasAbsorbed = true ∧
    (handleMistake ⟨ModifierType.KEEP, false⟩
        { startGame ColorState.RED ModifierType.KEEP 0 with
          lives := 1, buffer := 60 }).shouldReboot = false :=
  absorb_law ⟨ModifierType.KEEP, false⟩
    { startGame ColorState.RED ModifierType.KEEP 0 with lives := 1, buffer := 60 }
    rfl (by decide)

/-- **C4** — Reboot law: an incorrect answer at `lives = 1`, `buffer < 50`
signals a reboot, after which lives are 3, buffer 0 and the round duration is
back at the 3000 ms session default; and the reboot reset itself restores
lives/buffer/window/warm-up to session-start defaults while decrementing the
complexity level by exactly one step, floored at `BASELINE`. -/
theorem reboot_law (d : Draws) (s t : StreamSt)
    (hl : s.lives = 1) (hb : s.buffer < 50) :
    (handleMistake d s).shouldReboot = true ∧
    (handleMistake d s).st.lives = 3 ∧
    (handleMistake d s).st.buffer = 0 ∧
    (handleMistake d s).st.roundDuration = 3000 ∧
    (rebootReset t).lives = 3 ∧
    (rebootReset t).buffer = 0 ∧
    (rebootReset t).roundDuration = 3000 ∧
    (rebootReset t).warmUpRounds = 3 ∧
    (BASELINE < t.complexity → (rebootReset t).complexity + 1 = t.complexity) ∧
    (t.complexity = BASELINE → (rebootReset t).complexity = BASELINE) := by
  have hcond : ¬ (s.lives = 1 ∧ 50 ≤ s.buffer) := by
    rintro ⟨-, h⟩; omega
  have hnl : s.lives - 1 = 0 := by omega
  simp only [handleMistake, if_neg hcond, hnl, if_pos rfl,
    triggerSystemReboot, generateNextRoundConfig, rebootReset]
  refine ⟨by trivial, by trivial, by trivial, by trivial, by trivial, by trivial, by trivial, by trivial, ?_, ?_⟩
  · intro h; simp only [rebootReset, BASELINE] at *; omega
  · intro h; simp only [rebootReset, BASELINE] at *; omega

/-- **C4 witness**: rebooting at `lives = 1`, `buffer = 20`, with the reset
applied to a state at complexity level 2. -/
theorem reboot_law_witness :
    (handleMistake ⟨ModifierType.KEEP, false⟩
        { startGame ColorState.RED ModifierType.KEEP 0 with
          lives := 1, buffer := 20 }).shouldReboot = true ∧
    (handleMistake ⟨ModifierType.KEEP, false⟩
        { startGame ColorState.RED ModifierType.KEEP 0 with
          lives := 1, buffer := 20 }).st.lives = 3 ∧
    (handleMistake ⟨ModifierType.KEEP, false⟩
        { startGame ColorState.RED ModifierType.KEEP 0 with
          lives := 1, buffer := 20 }).st.buffer = 0 ∧
    (handleMistake ⟨ModifierType.KEEP, false⟩
        { startGame ColorState.RED ModifierType.KEEP 0 with
          lives := 1, buffer := 20 }).st.roundDuration = 3000 ∧
    (rebootReset (startGame ColorState.RED ModifierType.KEEP 2)).lives = 3 ∧
    (rebootReset (startGame ColorState.RED ModifierType.KEEP 2)).buffer = 0 ∧
    (rebootReset (startGame ColorState.RED ModifierType.KEEP 2)).roundDuration = 3000 ∧
    (rebootReset (startGame ColorState.RED ModifierType.KEEP 2)).warmUpRounds = 3 ∧
    (BASELINE < (startGame ColorState.RED ModifierType.KEEP 2).complexity →
      (rebootReset (startGame ColorState.RED ModifierType.KEEP 2)).complexity + 1
        = (startGame ColorState.RED ModifierType.KEEP 2).complexity) ∧
    ((startGame ColorState.RED ModifierType.KEEP 2).complexity = BASELINE →
      (rebootReset (startGame ColorState.RED ModifierType.KEEP 2)).complexity
        = BASELINE) :=
  reboot_law ⟨ModifierType.KEEP, false⟩
    { startGame ColorState.RED ModifierType.KEEP 0 with lives := 1, buffer := 20 }
    (startGame ColorState.RED ModifierType.KEEP 2) rfl (by decide)

/-! ### Discrete Saccade variant (second component in StreamProtocol.tsx)

The discrete trial engine: hardcoded cipher `ZID = RIGHT`, `DAX = LEFT`
(line 618), contextual colour GREEN = obey / RED = invert (lines 621–625), a
configured trial count (10/25/50, default 10), HIT/MISS/TIMEOUT scoring with
reaction times recorded on HIT only, and a terminal `GameResult`. -/

namespace Saccade

inductive Phase
  | IDLE
  | FIXATION
  | CUE
  | TARGET
  | FEEDBACK
deriving DecidableEq, Repr

inductive CueWord
  | ZID
  | DAX
deriving DecidableEq, Repr

inductive CueColor
  | GREEN
  | RED
deriving DecidableEq, Repr

inductive Side
  | LEFT
  | RIGHT
deriving DecidableEq, Repr

/-- An input event: a logical side (pointer or keyboard) or the scheduled
timeout callback calling `handleInput('TIMEOUT')`. -/
inductive SacInput
  | left
  | right
  | timeout
deriving DecidableEq, Repr

inductive Outcome
  | HIT
  | MISS
  | TIMEOUT
deriving DecidableEq, Repr

/-- Line 618: `const semanticDirection = newText === 'ZID' ? 'RIGHT' : 'LEFT'`. -/
def semanticDirection : CueWord → Side
  | .ZID => .RIGHT
  | .DAX => .LEFT

def flipSide : Side → Side
  | .LEFT => .RIGHT
  | .RIGHT => .LEFT

/-- Lines 620–625: GREEN obeys the semantic direction, RED inverts it. -/
def targetSide (w : CueWord) (c : CueColor) : Side :=
  if c = CueColor.GREEN then semanticDirection w
  else flipSide (semanticDirection w)

/-- The engine-relevant state of the discrete Saccade component. -/
structure SessionSt where
  phase : Phase
  totalTrials : Nat
  trialCount : Nat
  score : Nat
  reactionTimes : List Nat
  cueText : CueWord
  cueColor : CueColor
  correctSide : Side
  feedback : Option Outcome
deriving DecidableEq, Repr

/-- `useState` defaults (lines 552–562), before `handleStart`. -/
def initSession (total : Nat) : SessionSt :=
  { phase := Phase.IDLE, totalTrials := total, trialCount := 0, score := 0,
    reactionTimes := [], cueText := CueWord.ZID, cueColor := CueColor.GREEN,
    correctSide := Side.RIGHT, feedback := none }

/-- The cue-generation part of `startTrial` (lines 602–636): clear feedback,
store the drawn cue word/colour and the computed correct side, and reach the
response-accepting TARGET phase (the FIXATION → CUE → TARGET timers collapse
to the phase in which input is judged). -/
def startTrialGen (w : CueWord) (c : CueColor) (s : SessionSt) : SessionSt :=
  { s with
    feedback := none, cueText := w, cueColor := c,
    correctSide := targetSide w c, phase := Phase.TARGET }

/-- Lines 676–686: TIMEOUT is its own outcome; otherwise the input side is
compared with the correct side. -/
def judge (side : SacInput) (correct : Side) : Outcome :=
  match side with
  | .timeout => Outcome.TIMEOUT
  | .left => if Side.LEFT = correct then Outcome.HIT else Outcome.MISS
  | .right => if Side.RIGHT = correct then Outcome.HIT else Outcome.MISS

/-- `handleInput` of the discrete variant (lines 668–697).  Lines 670–671 only
clear the pending timers ("Prevent double submissions"); **no guard flag is
checked or set**, and the phase is not consulted, so the function scores every
call.  On HIT the score increments and the reaction time is appended; feedback
is stored and the phase moves to FEEDBACK.  The deferred next-trial advance
(lines 693–696) is modelled separately in `stepTrial`. -/
def handleInput (side : SacInput) (rt : Nat) (s : SessionSt) : SessionSt :=
  let result := judge side s.correctSide
  let s1 :=
    if result = Outcome.HIT then
      { s with score := s.score + 1, reactionTimes := s.reactionTimes ++ [rt] }
    else s
  { s1 with feedback := some result, phase := Phase.FEEDBACK }

/-- One trial: its drawn cue, the (single) input honoured for it, and the
reaction time `Date.now() - startTimeRef.current` at that input. -/
structure Trial where
  word : CueWord
  color : CueColor
  input : SacInput
  rt : Nat
deriving DecidableEq, Repr

def outcomeOf (t : Trial) : Outcome := judge t.input (targetSide t.word t.color)

def isHit (t : Trial) : Bool := decide (outcomeOf t = Outcome.HIT)

/-- One complete trial of the discrete loop: cue generation, the single input,
then the deferred `setTrialCount(t => t + 1)` (line 694). -/
def stepTrial (s : SessionSt) (t : Trial) : SessionSt :=
  let s1 := handleInput t.input t.rt (startTrialGen t.word t.color s)
  { s1 with trialCount := s1.trialCount + 1 }

def runTrials (s : SessionSt) (ts : List Trial) : SessionSt := ts.foldl stepTrial s

/-- The terminal branch of `startTrial` (lines 588–599): mean reaction time
over the recorded (HIT-only) times, rounded; accuracy string from
`Math.round((score / totalTrials) * 100)`. -/
def finishSession (s : SessionSt) : GameResult :=
  let avgRT : ℚ :=
    if 0 < s.reactionTimes.length then
      (s.reactionTimes.sum : ℚ) / (s.reactionTimes.length : ℚ)
    else 0
  { mode := Mode.SACCADE, score := s.score,
    avgReactionTime := some (jsRound avgRT),
    details := some ("Accuracy: "
      ++ toString (jsRound (((s.score : ℚ) / (s.totalTrials : ℚ)) * 100))
      ++ "% (" ++ toString s.score ++ "/" ++ toString s.totalTrials ++ ")") }

/-- The session loop as run by `startTrial` (lines 587–600): at each trial
start, if `trialCount >= totalTrials` the single terminal `GameResult` is
emitted via `onGameOver` and the loop stops; otherwise the next trial runs. -/
def sessionEmits (s : SessionSt) : List Trial → List GameResult
  | [] => if s.totalTrials ≤ s.trialCount then [finishSession s] else []
  | t :: rest =>
      if s.totalTrials ≤ s.trialCount then [finishSession s]
      else sessionEmits (stepTrial s t) rest

theorem stepTrial_trialCount (s : SessionSt) (t : Trial) :
    (stepTrial s t).trialCount = s.trialCount + 1 := by
  unfold stepTrial handleInput startTrialGen
  dsimp only
  split <;> rfl

theorem stepTrial_totalTrials (s : SessionSt) (t : Trial) :
    (stepTrial s t).totalTrials = s.totalTrials := by
  unfold stepTrial handleInput startTrialGen
  dsimp only
  split <;> rfl

theorem stepTrial_score (s : SessionSt) (t : Trial) :
    (stepTrial s t).score = s.score + (if isHit t then 1 else 0) := by
  unfold stepTrial handleInput startTrialGen isHit outcomeOf
  dsimp only
  by_cases h : judge t.input (targetSide t.word t.color) = Outcome.HIT
  · rw [if_pos h]; simp [h]
  · rw [if_neg h]; simp [h]

theorem stepTrial_rts (s : SessionSt) (t : Trial) :
    (stepTrial s t).reactionTimes
      = s.reactionTimes ++ (if isHit t then [t.rt] else []) := by
  unfold stepTrial handleInput startTrialGen isHit outcomeOf
  dsimp only
  by_cases h : judge t.input (targetSide t.word t.color) = Outcome.HIT
  · rw [if_pos h]; simp [h]
  · rw [if_neg h]; simp [h]

theorem runTrials_char (ts : List Trial) : ∀ s : SessionSt,
    (runTrials s ts).score = s.score + (ts.filter isHit).length ∧
    (runTrials s ts).reactionTimes
      = s.reactionTimes ++ (ts.filter isHit).map Trial.rt ∧
    (runTrials s ts).trialCount = s.trialCount + ts.length ∧
    (runTrials s ts).totalTrials = s.totalTrials := by
  induction ts with
  | nil => intro s; simp [runTrials]
  | cons t rest ih =>
    intro s
    obtain ⟨h1, h2, h3, h4⟩ := ih (stepTrial s t)
    have hrun : runTrials s (t :: rest) = runTrials (stepTrial s t) rest := rfl
    rw [hrun]
    refine ⟨?_, ?_, ?_, ?_⟩
    · rw [h1, stepTrial_score]
      by_cases hh : isHit t <;> simp [List.filter_cons, hh] <;> omega
    · rw [h2, stepTrial_rts]
      by_cases hh : isHit t <;> simp [List.filter_cons, hh]
    · rw [h3, stepTrial_trialCount]
      simp; omega
    · rw [h4, stepTrial_totalTrials]

theorem sessionEmits_length (ts : List Trial) : ∀ s : SessionSt,
    s.totalTrials ≤ s.trialCount + ts.length →
    (sessionEmits s ts).length = 1 := by
  induction ts with
  | nil =>
    intro s h
    unfold sessionEmits
    rw [if_pos (by simpa using h)]
    rfl
  | cons t rest ih =>
    intro s h
    unfold sessionEmits
    by_cases hc : s.totalTrials ≤ s.trialCount
    · rw [if_pos hc]; rfl
    · rw [if_neg hc]
      apply ih
      rw [stepTrial_trialCount, stepTrial_totalTrials]
      simp at h ⊢
      omega

/-- The discrete variant at the response-accepting phase of a trial whose
correct side is LEFT, no input yet honoured. -/
def doubleInputStart : SessionSt :=
  { initSession 10 with phase := Phase.TARGET, correctSide := Side.LEFT }

/-- **C2** — evaluation at the failing input.  The discrete variant's
`handleInput` (lines 668–697) clears timers but checks and sets no guard
flag, so a second pointer (or stale-closure keyboard) event for the *same*
trial is honoured again: two LEFT inputs on a correct-side-LEFT trial raise
the score to 2 and record two reaction times, instead of leaving score and
recorded data unchanged after the first accepted input. -/
theorem discrete_double_input_scores_twice :
    (handleInput SacInput.left 250 doubleInputStart).score = 1 ∧
    (handleInput SacInput.left 300
        (handleInput SacInput.left 250 doubleInputStart)).score = 2 ∧
    (handleInput SacInput.left 300
        (handleInput SacInput.left 250 doubleInputStart)).reactionTimes
      = [250, 300] := by
  decide

/-- **C7** — Discrete end-to-end scenario: with the hardcoded cipher
(`ZID` = RIGHT, `DAX` = LEFT) and a GREEN (obey) context, stimulus `ZID` has
correct side RIGHT and a LEFT input is judged MISS; and a 10-trial session
with exactly 7 HIT outcomes emits a `GameResult` with score 7, the rounded
mean of the reaction times recorded on HIT trials only, and details exactly
`"Accuracy: 70% (7/10)"`. -/
theorem discrete_end_to_end (ts : List Trial) (rt : Nat)
    (h10 : ts.length = 10) (h7 : (ts.filter isHit).length = 7) :
    targetSide CueWord.ZID CueColor.GREEN = Side.RIGHT ∧
    outcomeOf ⟨CueWord.ZID, CueColor.GREEN, SacInput.left, rt⟩ = Outcome.MISS ∧
    (runTrials (initSession 10) ts).trialCount = 10 ∧
    (finishSession (runTrials (initSession 10) ts)).score = 7 ∧
    (finishSession (runTrials (initSession 10) ts)).avgReactionTime
      = some (jsRound ((((ts.filter isHit).map Trial.rt).sum : ℚ) / 7)) ∧
    (finishSession (runTrials (initSession 10) ts)).details
      = some "Accuracy: 70% (7/10)" := by
  obtain ⟨hsc, hrts, hcnt, htot⟩ := runTrials_char ts (initSession 10)
  have hscore : (runTrials (initSession 10) ts).score = 7 := by
    rw [hsc, h7]
    rfl
  have hfl : jsRound (((7 : Nat) : ℚ) / ((10 : Nat) : ℚ) * 100) = 70 := by
    unfold jsRound
    have harg : ((7 : Nat) : ℚ) / ((10 : Nat) : ℚ) * 100 + 1/2 = 141/2 := by
      norm_num
    rw [harg, Int.floor_eq_iff]
    constructor <;> norm_num
  have htot10 : (runTrials (initSession 10) ts).totalTrials = 10 := htot
  have hrts7 : (runTrials (initSession 10) ts).reactionTimes
      = (ts.filter isHit).map Trial.rt := by
    rw [hrts]; rfl
  have hlen : ((ts.filter isHit).map Trial.rt).length = 7 := by
    rw [List.length_map]; exact h7
  refine ⟨rfl, rfl, ?_, ?_, ?_, ?_⟩
  · rw [hcnt, h10]
    rfl
  · simp [finishSession, hscore]
  · simp only [finishSession]
    rw [hrts7, hlen]
    norm_num
  · simp only [finishSession]
    rw [hscore, htot10, hfl]
    decide

/-- A concrete 10-trial session with 7 HITs (reaction times
300…420 on the HIT trials), then a MISS, a TIMEOUT, and a MISS. -/
def demoTrials : List Trial :=
  [⟨CueWord.ZID, CueColor.GREEN, SacInput.right, 300⟩,
   ⟨CueWord.DAX, CueColor.GREEN, SacInput.left, 320⟩,
   ⟨CueWord.ZID, CueColor.RED, SacInput.left, 340⟩,
   ⟨CueWord.DAX, CueColor.RED, SacInput.right, 360⟩,
   ⟨CueWord.ZID, CueColor.GREEN, SacInput.right, 380⟩,
   ⟨CueWord.ZID, CueColor.GREEN, SacInput.right, 400⟩,
   ⟨CueWord.DAX, CueColor.GREEN, SacInput.left, 420⟩,
   ⟨CueWord.ZID, CueColor.GREEN, SacInput.left, 0⟩,
   ⟨CueWord.DAX, CueColor.GREEN, SacInput.timeout, 0⟩,
   ⟨CueWord.ZID, CueColor.RED, SacInput.right, 0⟩]

/-- **C7 witness**: the scenario evaluated on `demoTrials`. -/
theorem discrete_end_to_end_witness :
    targetSide CueWord.ZID CueColor.GREEN = Side.RIGHT ∧
    outcomeOf ⟨CueWord.ZID, CueColor.GREEN, SacInput.left, 500⟩ = Outcome.MISS ∧
    (runTrials (initSession 10) demoTrials).trialCount = 10 ∧
    (finishSession (runTrials (initSession 10) demoTrials)).score = 7 ∧
    (finishSession (runTrials (initSession 10) demoTrials)).avgReactionTime
      = some (jsRound ((((demoTrials.filter isHit).map Trial.rt).sum : ℚ) / 7)) ∧
    (finishSession (runTrials (initSession 10) demoTrials)).details
      = some "Accuracy: 70% (7/10)" :=
  discrete_end_to_end demoTrials 500 (by decide) (by decide)

end Saccade

/-! ### GameResult delivery (C8) -/

theorem streamRunOut_acc (es : List StreamEv) :
    ∀ p : StreamSt × List GameResult,
      (es.foldl (fun acc e =>
        let n := streamStepOut e acc.1
        (n.1, acc.2 ++ n.2)) p).2 = p.2 := by
  induction es with
  | nil => intro p; rfl
  | cons e rest ih =>
    intro p
    rw [List.foldl_cons, ih]
    simp [streamStepOut]

/-- No transition of the stream session emits a `GameResult`: the component
never invokes `onGameOver` (it is not even destructured from the props on
line 55). -/
theorem streamRunOut_snd (es : List StreamEv) (s : StreamSt) :
    (streamRunOut es s).2 = [] := by
  unfold streamRunOut
  exact streamRunOut_acc es (s, [])

/-- **C8 counterexample**: a complete stream session — one round lost to the
timeout, then the participant exits — delivers no terminal `GameResult` at
all, refuting the claim that every session in the stream variant produces
exactly one. -/
theorem stream_session_emits_no_result :
    ((streamRunOut [StreamEv.timeout ⟨ModifierType.KEEP, false⟩, StreamEv.exit]
        (startGame ColorState.RED ModifierType.KEEP 0)).2).length ≠ 1 := by
  rw [streamRunOut_snd]
  decide

/-- **C8 (amended)** — GameResult delivery: the discrete variant's session
loop emits exactly one terminal `GameResult` once enough trials have run,
while the stream variant emits none at any point (its `onGameOver` prop is
declared but never invoked), so at most the discrete result crosses the
boundary to the surrounding application. -/
theorem gameresult_delivery (es : List StreamEv) (s0 : StreamSt)
    (s : Saccade.SessionSt) (ts : List Saccade.Trial)
    (hf : s.totalTrials ≤ s.trialCount + ts.length) :
    (streamRunOut es s0).2 = [] ∧ (Saccade.sessionEmits s ts).length = 1 :=
  ⟨streamRunOut_snd es s0, Saccade.sessionEmits_length ts s hf⟩

/-- **C8 witness**: one-trial discrete session and an exiting stream session. -/
theorem gameresult_delivery_witness :
    (streamRunOut [StreamEv.exit]
        (startGame ColorState.BLUE ModifierType.INVERT 1)).2 = [] ∧
    (Saccade.sessionEmits (Saccade.initSession 1)
        [⟨Saccade.CueWord.ZID, Saccade.CueColor.GREEN,
          Saccade.SacInput.right, 100⟩]).length = 1 :=
  gameresult_delivery [StreamEv.exit] (startGame ColorState.BLUE ModifierType.INVERT 1)
    (Saccade.initSession 1)
    [⟨Saccade.CueWord.ZID, Saccade.CueColor.GREEN, Saccade.SacInput.right, 100⟩]
    (by decide)

/-! ### Invariants of the stream difficulty controller (C6, C10) -/

/-- The round duration computed by `updateDifficulty`, as a formula. -/
theorem updateDifficulty_roundDuration_char (w : Bool) (s : StreamSt) :
    (updateDifficulty w s).roundDuration =
      if w then max 1200 (s.roundDuration * (19/20))
      else min 3000 (s.roundDuration * (13/10)) := by
  unfold updateDifficulty
  dsimp only
  split_ifs <;> rfl

/-- The C6 invariant on the stream side: complexity within the enum range and
round duration within the 1200–3000 ms window. -/
def streamInv (s : StreamSt) : Prop :=
  s.complexity ≤ MAXIMUM_LOAD ∧ 1200 ≤ s.roundDuration ∧ s.roundDuration ≤ 3000

theorem updateDifficulty_inv (w : Bool) (s : StreamSt) (h : streamInv s) :
    streamInv (updateDifficulty w s) := by
  obtain ⟨hc, hlo, hhi⟩ := h
  refine ⟨?_, ?_, ?_⟩
  · rw [updateDifficulty_complexity_char]
    simp only [MAXIMUM_LOAD, BASELINE] at *
    split_ifs <;> omega
  · rw [updateDifficulty_roundDuration_char]
    split_ifs
    · exact le_max_left _ _
    · exact le_min (by norm_num) (by linarith)
  · rw [updateDifficulty_roundDuration_char]
    split_ifs
    · exact max_le (by norm_num) (by linarith)
    · exact min_le_left _ _

theorem bufferGain_complexity (s : StreamSt) :
    (bufferGain s).complexity = s.complexity := by
  unfold bufferGain; dsimp only; split <;> rfl

theorem bufferGain_roundDuration (s : StreamSt) :
    (bufferGain s).roundDuration = s.roundDuration := by
  unfold bufferGain; dsimp only; split <;> rfl

theorem handleMistake_inv (d : Draws) (s : StreamSt) (h : streamInv s) :
    streamInv (handleMistake d s).st := by
  unfold handleMistake
  dsimp only
  split_ifs with h1 h2
  · exact updateDifficulty_inv false { s with buffer := 0 } h
  · have h1' := updateDifficulty_inv false { s with buffer := 0 } h
    unfold triggerSystemReboot generateNextRoundConfig rebootReset
    dsimp only
    refine ⟨?_, by norm_num, by norm_num⟩
    have := h1'.1
    simp only [MAXIMUM_LOAD, BASELINE] at *
    omega
  · exact updateDifficulty_inv false { s with buffer := 0 } h

theorem handleInput_inv (d : Draws) (c : ColorState) (s : StreamSt)
    (h : streamInv s) : streamInv (handleInput d c s) := by
  unfold handleInput
  dsimp only
  split_ifs with hg hc
  · exact h
  · have h1 := updateDifficulty_inv true { s with hasAnswered := true } h
    refine ⟨?_, ?_, ?_⟩
    · show (bufferGain (updateDifficulty true { s with hasAnswered := true })).complexity
        ≤ MAXIMUM_LOAD
      rw [bufferGain_complexity]; exact h1.1
    · show (1200 : ℚ)
        ≤ (bufferGain (updateDifficulty true { s with hasAnswered := true })).roundDuration
      rw [bufferGain_roundDuration]; exact h1.2.1
    · show (bufferGain (updateDifficulty true { s with hasAnswered := true })).roundDuration
        ≤ 3000
      rw [bufferGain_roundDuration]; exact h1.2.2
  · exact handleMistake_inv d { s with hasAnswered := true } h

theorem streamStep_inv (e : StreamEv) (s : StreamSt) (h : streamInv s) :
    streamInv (streamStep e s) := by
  cases e with
  | input d c => exact handleInput_inv d c s h
  | timeout d =>
    unfold streamStep
    dsimp only
    split_ifs with hg
    · exact handleMistake_inv d s h
    · exact h
  | exit => exact h

theorem streamRun_inv (es : List StreamEv) :
    ∀ s : StreamSt, streamInv s → streamInv (streamRun es s) := by
  induction es with
  | nil => intro s h; exact h
  | cons e rest ih => intro s h; exact ih _ (streamStep_inv e s h)

/-- The C10 invariant: the buffer only ever holds 0, 20, 40, 60 or 80. -/
def bufferInv (s : StreamSt) : Prop :=
  s.buffer = 0 ∨ s.buffer = 20 ∨ s.buffer = 40 ∨ s.buffer = 60 ∨ s.buffer = 80

theorem bufferGain_bufferInv (s : StreamSt) (h : bufferInv s) :
    bufferInv (bufferGain s) := by
  unfold bufferInv bufferGain at *
  dsimp only
  rcases h with h|h|h|h|h <;> rw [h] <;> norm_num

theorem handleMistake_buffer (d : Draws) (s : StreamSt) :
    (handleMistake d s).st.buffer = 0 := by
  unfold handleMistake triggerSystemReboot generateNextRoundConfig rebootReset
  dsimp only
  split_ifs <;> simp [updateDifficulty_buffer]

theorem handleInput_bufferInv (d : Draws) (c : ColorState) (s : StreamSt)
    (h : bufferInv s) : bufferInv (handleInput d c s) := by
  unfold handleInput
  dsimp only
  split_ifs with hg hc
  · exact h
  · have hb : bufferInv (updateDifficulty true { s with hasAnswered := true }) := by
      unfold bufferInv at *
      rw [updateDifficulty_buffer]
      exact h
    exact bufferGain_bufferInv _ hb
  · unfold bufferInv
    left
    exact handleMistake_buffer d { s with hasAnswered := true }

theorem streamStep_bufferInv (e : StreamEv) (s : StreamSt) (h : bufferInv s) :
    bufferInv (streamStep e s) := by
  cases e with
  | input d c => exact handleInput_bufferInv d c s h
  | timeout d =>
    unfold streamStep
    dsimp only
    split_ifs with hg
    · unfold bufferInv; left; exact handleMistake_buffer d s
    · exact h
  | exit => exact h

theorem streamRun_bufferInv (es : List StreamEv) :
    ∀ s : StreamSt, bufferInv s → bufferInv (streamRun es s) := by
  induction es with
  | nil => intro s h; exact h
  | cons e rest ih => intro s h; exact ih _ (streamStep_bufferInv e s h)

/-! ### InfinitePosner engine (SaccadeProtocol.tsx) -/

namespace Posner

def SPEED_FLOOR : Nat := 600
def STARTING_SPEED : Nat := 1500
def SPEED_INCREMENT : Nat := 50
def SHIFT_THRESHOLD_BASE : Nat := 15

inductive Outcome
  | HIT
  | MISS
deriving DecidableEq, Repr

/-- The difficulty-relevant fields of `gameRef` (lines 127–137). -/
structure EngineSt where
  level : Nat
  speedWindow : Nat
  streak : Nat
  trialsSinceShift : Nat
deriving DecidableEq, Repr

/-- `handleResult` (lines 204–245): on HIT, streak and shift counter advance
(the counter resets when the cipher-shift threshold is reached at level ≥ 2);
mastery (window at the 600 ms floor, or a streak of 10) below level 5 levels
up and resets the window to 1200; otherwise the window shrinks by 50 ms down
to the floor.  On MISS the streak resets and the window grows by 200 ms capped
at 2000; at ≥ 1800 ms above level 1 the level drops and the window becomes
1000. -/
def handleResult (r : Outcome) (s : EngineSt) : EngineSt :=
  match r with
  | .HIT =>
    let streak := s.streak + 1
    let tss0 := s.trialsSinceShift + 1
    let shiftThreshold := max 5 (SHIFT_THRESHOLD_BASE - s.level * 2)
    let tss := if 2 ≤ s.level ∧ shiftThreshold ≤ tss0 then 0 else tss0
    if (s.speedWindow ≤ SPEED_FLOOR ∨ 10 ≤ streak) ∧ s.level < 5 then
      { level := s.level + 1, speedWindow := 1200, streak := 0,
        trialsSinceShift := tss }
    else
      { level := s.level,
        speedWindow :=
          if SPEED_FLOOR < s.speedWindow then s.speedWindow - SPEED_INCREMENT
          else s.speedWindow,
        streak := streak, trialsSinceShift := tss }
  | .MISS =>
    let speedWindow := min (s.speedWindow + 200) 2000
    if 1800 ≤ speedWindow ∧ 1 < s.level then
      { level := s.level - 1, speedWindow := 1000, streak := 0,
        trialsSinceShift := s.trialsSinceShift }
    else
      { level := s.level, speedWindow := speedWindow, streak := 0,
        trialsSinceShift := s.trialsSinceShift }

/-- Session start: `DEFAULT_PROFILE` / the `gameRef` initial values
(level 1, window `STARTING_SPEED`). -/
def initEngine : EngineSt :=
  { level := 1, speedWindow := STARTING_SPEED, streak := 0, trialsSinceShift := 0 }

def runOutcomes (rs : List Outcome) : EngineSt :=
  rs.foldl (fun s r => handleResult r s) initEngine

/-- Window invariant: within the 600–2000 ms band and a multiple of the 50 ms
step (every assignment in `handleResult` preserves divisibility by 50). -/
def windowInv (s : EngineSt) : Prop :=
  SPEED_FLOOR ≤ s.speedWindow ∧ s.speedWindow ≤ 2000 ∧ 50 ∣ s.speedWindow

theorem handleResult_windowInv (r : Outcome) (s : EngineSt) (h : windowInv s) :
    windowInv (handleResult r s) := by
  obtain ⟨h1, h2, h3⟩ := h
  simp only [SPEED_FLOOR] at h1
  cases r <;> unfold handleResult <;> dsimp only <;>
    split_ifs <;> unfold windowInv <;> dsimp only <;>
    simp only [SPEED_FLOOR, SPEED_INCREMENT] at * <;>
    refine ⟨?_, ?_, ?_⟩ <;> omega

theorem runOutcomes_aux (rs : List Outcome) :
    ∀ s : EngineSt, windowInv s →
      windowInv (rs.foldl (fun t r => handleResult r t) s) := by
  induction rs with
  | nil => intro s h; exact h
  | cons r rest ih => intro s h; exact ih _ (handleResult_windowInv r s h)

theorem runOutcomes_windowInv (rs : List Outcome) :
    windowInv (runOutcomes rs) := by
  unfold runOutcomes
  exact runOutcomes_aux rs initEngine
    (by unfold windowInv initEngine SPEED_FLOOR STARTING_SPEED; norm_num)

end Posner

/-! ### C6, C10 and C9 claim theorems -/

/-- **C6** — Difficulty monotonic bounds: from any session start whose
persisted level is within the enum range, any sequence of inputs and timeouts
keeps the stream variant's complexity in `[BASELINE, MAXIMUM_LOAD]` and its
round duration in `[1200 ms, 3000 ms]`; and from the default profile any
sequence of HIT/MISS outcomes keeps the saccade (Posner) speed window in
`[600 ms, 2000 ms]`. -/
theorem difficulty_monotonic_bounds (es : List StreamEv) (sc : ColorState)
    (m : ModifierType) (c0 : Nat) (hc0 : c0 ≤ MAXIMUM_LOAD)
    (rs : List Posner.Outcome) :
    BASELINE ≤ (streamRun es (startGame sc m c0)).complexity ∧
    (streamRun es (startGame sc m c0)).complexity ≤ MAXIMUM_LOAD ∧
    1200 ≤ (streamRun es (startGame sc m c0)).roundDuration ∧
    (streamRun es (startGame sc m c0)).roundDuration ≤ 3000 ∧
    Posner.SPEED_FLOOR ≤ (Posner.runOutcomes rs).speedWindow ∧
    (Posner.runOutcomes rs).speedWindow ≤ 2000 := by
  have hs : streamInv (startGame sc m c0) := by
    unfold streamInv startGame
    exact ⟨hc0, by norm_num, by norm_num⟩
  have h := streamRun_inv es (startGame sc m c0) hs
  have hp := Posner.runOutcomes_windowInv rs
  exact ⟨Nat.zero_le _, h.1, h.2.1, h.2.2, hp.1, hp.2.1⟩

/-- **C6 witness**: the bounds at the fresh session states. -/
theorem difficulty_monotonic_bounds_witness :
    BASELINE ≤ (streamRun [] (startGame ColorState.RED ModifierType.KEEP 0)).complexity ∧
    (streamRun [] (startGame ColorState.RED ModifierType.KEEP 0)).complexity
      ≤ MAXIMUM_LOAD ∧
    1200 ≤ (streamRun [] (startGame ColorState.RED ModifierType.KEEP 0)).roundDuration ∧
    (streamRun [] (startGame ColorState.RED ModifierType.KEEP 0)).roundDuration
      ≤ 3000 ∧
    Posner.SPEED_FLOOR ≤ (Posner.runOutcomes []).speedWindow ∧
    (Posner.runOutcomes []).speedWindow ≤ 2000 :=
  difficulty_monotonic_bounds [] ColorState.RED ModifierType.KEEP 0 (by decide) []

/-- **C10** — Buffer granularity: every reachable stream-session buffer value
is one of 0/20/40/60/80 — in particular the stored buffer never equals 100,
and the shield precondition `buffer ≥ 50` is reachable only with
`buffer ≥ 60` — and a correct answer at buffer 80 resets the buffer to 0 in
the same update in which the +20 increment would reach 100. -/
theorem buffer_granularity (es : List StreamEv) (sc : ColorState)
    (m : ModifierType) (c0 : Nat) (t : StreamSt) (ht : t.buffer = 80) :
    ((streamRun es (startGame sc m c0)).buffer = 0 ∨
     (streamRun es (startGame sc m c0)).buffer = 20 ∨
     (streamRun es (startGame sc m c0)).buffer = 40 ∨
     (streamRun es (startGame sc m c0)).buffer = 60 ∨
     (streamRun es (startGame sc m c0)).buffer = 80) ∧
    (streamRun es (startGame sc m c0)).buffer ≠ 100 ∧
    (50 ≤ (streamRun es (startGame sc m c0)).buffer →
      60 ≤ (streamRun es (startGame sc m c0)).buffer) ∧
    (bufferGain t).buffer = 0 := by
  have h0 : bufferInv (startGame sc m c0) := Or.inl rfl
  have h := streamRun_bufferInv es (startGame sc m c0) h0
  unfold bufferInv at h
  refine ⟨h, by omega, by omega, ?_⟩
  unfold bufferGain
  dsimp only
  rw [ht]
  norm_num

/-- **C10 witness**: a session that has answered one round correctly, and the
same-step reset applied at buffer 80. -/
theorem buffer_granularity_witness :
    ((streamRun [StreamEv.input ⟨ModifierType.KEEP, false⟩ ColorState.RED]
        (startGame ColorState.RED ModifierType.KEEP 0)).buffer = 0 ∨
     (streamRun [StreamEv.input ⟨ModifierType.KEEP, false⟩ ColorState.RED]
        (startGame ColorState.RED ModifierType.KEEP 0)).buffer = 20 ∨
     (streamRun [StreamEv.input ⟨ModifierType.KEEP, false⟩ ColorState.RED]
        (startGame ColorState.RED ModifierType.KEEP 0)).buffer = 40 ∨
     (streamRun [StreamEv.input ⟨ModifierType.KEEP, false⟩ ColorState.RED]
        (startGame ColorState.RED ModifierType.KEEP 0)).buffer = 60 ∨
     (streamRun [StreamEv.input ⟨ModifierType.KEEP, false⟩ ColorState.RED]
        (startGame ColorState.RED ModifierType.KEEP 0)).buffer = 80) ∧
    (streamRun [StreamEv.input ⟨ModifierType.KEEP, false⟩ ColorState.RED]
        (startGame ColorState.RED ModifierType.KEEP 0)).buffer ≠ 100 ∧
    (50 ≤ (streamRun [StreamEv.input ⟨ModifierType.KEEP, false⟩ ColorState.RED]
        (startGame ColorState.RED ModifierType.KEEP 0)).buffer →
      60 ≤ (streamRun [StreamEv.input ⟨ModifierType.KEEP, false⟩ ColorState.RED]
        (startGame ColorState.RED ModifierType.KEEP 0)).buffer) ∧
    (bufferGain { startGame ColorState.RED ModifierType.KEEP 0 with
        buffer := 80 }).buffer = 0 :=
  buffer_granularity [StreamEv.input ⟨ModifierType.KEEP, false⟩ ColorState.RED]
    ColorState.RED ModifierType.KEEP 0
    { startGame ColorState.RED ModifierType.KEEP 0 with buffer := 80 } rfl

/-! ### Persistence (C9) -/

/-- The shapes of a successful `JSON.parse` result that matter to the
initializer: `null` (whose field access throws), or an object with an
optional numeric `complexity` field. -/
inductive JsDoc
  | jsNull
  | objWith (complexity : Option Int)
deriving DecidableEq, Repr

inductive JsFailure
  | parseFailure
  | fieldAccessFailure
deriving DecidableEq, Repr

/-- What the initializer evaluates to: a number, or `undefined` when the
parsed object lacks the `complexity` field. -/
inductive Loaded
  | num (n : Int)
  | undef
deriving DecidableEq, Repr

/-- The `complexity` useState initializer (lines 69–72):
`saved ? JSON.parse(saved).complexity : ComplexityLevel.BASELINE`, with
`parse` standing for the external `JSON.parse` (`none` = its SyntaxError
case).  There is no try/catch: a parse failure, or accessing `.complexity`
on a parsed `null`, propagates as a thrown exception (`Except.error`). -/
def loadStreamComplexity (parse : String → Option JsDoc)
    (saved : Option String) : Except JsFailure Loaded :=
  match saved with
  | none => Except.ok (Loaded.num (BASELINE : Int))
  | some str =>
    match parse str with
    | none => Except.error JsFailure.parseFailure
    | some JsDoc.jsNull => Except.error JsFailure.fieldAccessFailure
    | some (JsDoc.objWith c) =>
      match c with
      | some n => Except.ok (Loaded.num n)
      | none => Except.ok Loaded.undef

/-- **C9** — evaluation at the failing input: for any stored string the JSON
parser rejects, session construction throws (propagates the exception)
instead of defaulting, so it does not return the `BASELINE` level; only the
absent-key case defaults to `BASELINE`. -/
theorem persistence_read_throws (parse : String → Option JsDoc) (str : String)
    (hp : parse str = none) :
    loadStreamComplexity parse (some str) = Except.error JsFailure.parseFailure ∧
    loadStreamComplexity parse (some str)
      ≠ Except.ok (Loaded.num (BASELINE : Int)) ∧
    loadStreamComplexity parse none = Except.ok (Loaded.num (BASELINE : Int)) := by
  unfold loadStreamComplexity
  dsimp only
  rw [hp]
  exact ⟨rfl, by simp, rfl⟩

/-- **C9 witness**: a parser rejecting the stored string `"garbage"`. -/
theorem persistence_read_throws_witness :
    loadStreamComplexity (fun _ => none) (some "garbage")
      = Except.error JsFailure.parseFailure ∧
    loadStreamComplexity (fun _ => none) (some "garbage")
      ≠ Except.ok (Loaded.num (BASELINE : Int)) ∧
    loadStreamComplexity (fun _ => none) none
      = Except.ok (Loaded.num (BASELINE : Int)) :=
  persistence_read_throws (fun _ => none) "garbage" rfl

end NeuroKinetic
